import Mathlib

/-!
Shallow embedding of the GXR halving module (chain/x/halving): the per-block
tick in abci.go and the distribution engine in keeper/keeper.go, together with
the ledger primitives it consumes (total supply, the halving module account,
burn/mint/transfer).  Amounts are in ugen and modelled as ℕ; block times are
unix seconds modelled as ℤ.  sdk.Dec values are 18-decimal fixed-point
integers; a Dec share is modelled by its integer numerator over 10^18, and
amount.ToDec().Mul(share).TruncateInt() is exact multiply-then-truncate
because the scaled product is exactly divisible before truncation.
-/

namespace Genpro

/-- Fixed-point scale of sdk.Dec (18 decimal places). -/
def decUnit : ℕ := 10 ^ 18

/-- MinimumSupplyThreshold from keeper.go: 1000 * 1e8 ugen (1,000 GXR). -/
def MinimumSupplyThreshold : ℕ := 1000 * 100000000

/-- HalvingReductionRate "0.15" as a Dec numerator over 10^18. -/
def reductionRateNum : ℕ := 15 * 10 ^ 16

/-- Seconds in the 30-day monthly trigger interval (30 * 24 * time.Hour). -/
def thirtyDays : ℤ := 30 * 24 * 3600

/-- Module parameters (x/halving/types params, defaults from DefaultParams):
HalvingCycleDuration is a duration in seconds, the three shares are Dec
numerators over 10^18. -/
structure Params where
  halvingCycleDuration : ℤ
  validatorShareNum : ℕ
  delegatorShareNum : ℕ
  dexShareNum : ℕ
  deriving Repr, DecidableEq

/-- DefaultParams: 5-year cycle, shares 0.70 / 0.20 / 0.10. -/
def DefaultParams : Params :=
  { halvingCycleDuration := 5 * 365 * 24 * 3600
  , validatorShareNum := 70 * 10 ^ 16
  , delegatorShareNum := 20 * 10 ^ 16
  , dexShareNum := 10 * 10 ^ 16 }

/-- amount.ToDec().Mul(share).TruncateInt() for a nonnegative integer amount
and a Dec share with numerator num: exactly amount * num / 10^18, truncated. -/
def mulDecTrunc (amount num : ℕ) : ℕ := amount * num / decUnit

/-- HalvingInfo as used by keeper/keeper.go (coin amounts flattened to ugen). -/
structure HalvingInfo where
  currentCycle : ℕ
  cycleStartTime : ℤ
  totalFundsForCycle : ℕ
  distributedInCycle : ℕ
  deriving Repr, DecidableEq

/-- DistributionRecord: one monthly distribution audit entry. -/
structure DistributionRecord where
  timestamp : ℤ
  amount : ℕ
  cycle : ℕ
  month : ℕ
  deriving Repr, DecidableEq

/-- A bonded validator as the distribution code observes it: whether
sdk.ValAddressFromBech32 succeeds on its operator address, and whether the
ledger's SendCoinsFromModuleToAccount call for it succeeds (an external
ledger outcome; an insufficient module balance also fails the send). -/
structure Validator where
  addrValid : Bool
  sendOk : Bool
  deriving Repr, DecidableEq

/-- The slice of the bank ledger the module touches: total ugen supply and
the halving module account balance.  BurnCoins removes from both (failing if
the module balance is insufficient); MintCoins adds to both; a module-to-
account transfer moves ugen out of the module balance, supply unchanged. -/
structure Bank where
  supply : ℕ
  moduleBalance : ℕ
  deriving Repr, DecidableEq

/-- The module's KV-store state: halving info (absent until first written)
plus the distribution records, keyed by timestamp. -/
structure State where
  bank : Bank
  info : Option HalvingInfo
  records : List DistributionRecord
  deriving Repr, DecidableEq

/-- A transfer to the validator at a given position of the bonded list. -/
structure ValPayment where
  idx : ℕ
  amount : ℕ
  deriving Repr, DecidableEq

/-- CalculateMonthlyReward (keeper.go): 15% of the current total supply,
Dec-truncated, then QuoRaw(60) - the reduction is spread over 60 months. -/
def CalculateMonthlyReward (supply : ℕ) : ℕ :=
  mulDecTrunc supply reductionRateNum / 60

/-- SetDistributionRecord: the KV store writes under key LastDistributionKey
++ bigEndian(timestamp), so a record with the same timestamp is overwritten
and a fresh timestamp is appended. -/
def SetDistributionRecord (records : List DistributionRecord)
    (r : DistributionRecord) : List DistributionRecord :=
  if records.any (fun q => q.timestamp = r.timestamp) then
    records.map (fun q => if q.timestamp = r.timestamp then r else q)
  else
    records ++ [r]

/-- getCurrentMonth (keeper.go): months elapsed since cycle start, with a
month approximated as 30 days, plus 1.  Go computes int64(elapsed.Hours() /
(24*30)), i.e. truncation toward zero, then converts to uint64; the wraparound
of a negative value is not modelled (all uses here have now at or after the
cycle start). -/
def getCurrentMonth (now cycleStartTime : ℤ) : ℕ :=
  ((now - cycleStartTime).tdiv 2592000 + 1).toNat

/-- The transfer loop of distributeToValidators: for each bonded validator in
order, skip it if its operator address fails to parse, otherwise attempt the
module-to-account send of the per-validator amount, skipping on failure. -/
def payValidators (per : ℕ) : Bank → ℕ → List Validator → Bank × List ValPayment
  | b, _, [] => (b, [])
  | b, i, v :: vs =>
    if v.addrValid && v.sendOk && decide (per ≤ b.moduleBalance) then
      let rest := payValidators per ⟨b.supply, b.moduleBalance - per⟩ (i + 1) vs
      (rest.1, ⟨i, per⟩ :: rest.2)
    else
      payValidators per b (i + 1) vs

/-- distributeToValidators (keeper.go): error iff the bonded set is empty;
otherwise divide the bucket equally (integer division) and return success,
even when the per-validator amount truncates to zero (no transfer happens)
or when individual transfers are skipped.  The Bool result is the error
flag, the list the executed transfers. -/
def distributeToValidators (b : Bank) (validators : List Validator)
    (amount : ℕ) : Bank × Bool × List ValPayment :=
  if validators.length = 0 then (b, true, [])
  else
    let perValidatorAmount := amount / validators.length
    if perValidatorAmount = 0 then (b, false, [])
    else
      let paid := payValidators perValidatorAmount b 0 validators
      (paid.1, false, paid.2)

/-- Result of DistributeMonthlyRewards: the (possibly partially mutated)
state, whether an error was returned, the validator transfers executed, and
the delegator-pool transfer amount when it was executed. -/
structure DistResult where
  state : State
  err : Bool
  valPayments : List ValPayment
  delegatorPaid : Option ℕ
  deriving Repr, DecidableEq

/-- DistributeMonthlyRewards (keeper.go).  Sequence: supply-threshold check
(silent no-op below threshold), compute the monthly reward from the live
supply (error if zero), compute the three Dec-truncated buckets, burn the
monthly reward from the module account (error propagates), mint the three
buckets to the module account (the mintOk flag injects the external ledger
outcome of MintCoins; error propagates with the burn already applied),
distribute to validators (error propagates), transfer the delegator bucket
to the fee collector, leave the DEX bucket in the module account, then
update distributedInCycle (lazily initialising HalvingInfo from the pre-burn
supply) and append the DistributionRecord.  State mutations made before a
failing step persist, as they do in the Go store. -/
def DistributeMonthlyRewards (s : State) (p : Params) (now : ℤ)
    (validators : List Validator) (mintOk : Bool) : DistResult :=
  let currentSupply := s.bank.supply
  if currentSupply < MinimumSupplyThreshold then
    { state := s, err := false, valPayments := [], delegatorPaid := none }
  else
    let monthlyReward := CalculateMonthlyReward currentSupply
    if monthlyReward = 0 then
      { state := s, err := true, valPayments := [], delegatorPaid := none }
    else
      let validatorAmount := mulDecTrunc monthlyReward p.validatorShareNum
      let delegatorAmount := mulDecTrunc monthlyReward p.delegatorShareNum
      let dexAmount := mulDecTrunc monthlyReward p.dexShareNum
      if s.bank.moduleBalance < monthlyReward then
        { state := s, err := true, valPayments := [], delegatorPaid := none }
      else
        let bank1 : Bank :=
          ⟨currentSupply - monthlyReward, s.bank.moduleBalance - monthlyReward⟩
        if !mintOk then
          { state := { s with bank := bank1 }, err := true,
            valPayments := [], delegatorPaid := none }
        else
          let minted := validatorAmount + delegatorAmount + dexAmount
          let bank2 : Bank := ⟨bank1.supply + minted, bank1.moduleBalance + minted⟩
          match distributeToValidators bank2 validators validatorAmount with
          | (bank3, true, ps) =>
            { state := { s with bank := bank3 }, err := true,
              valPayments := ps, delegatorPaid := none }
          | (bank3, false, ps) =>
            if bank3.moduleBalance < delegatorAmount then
              { state := { s with bank := bank3 }, err := true,
                valPayments := ps, delegatorPaid := none }
            else
              let bank4 : Bank := ⟨bank3.supply, bank3.moduleBalance - delegatorAmount⟩
              let info0 := s.info.getD ⟨1, now, currentSupply, 0⟩
              let info1 :=
                { info0 with distributedInCycle := info0.distributedInCycle + monthlyReward }
              let rcd : DistributionRecord :=
                ⟨now, monthlyReward, info1.currentCycle,
                  getCurrentMonth now info1.cycleStartTime⟩
              { state := ⟨bank4, some info1, SetDistributionRecord s.records rcd⟩,
                err := false, valPayments := ps, delegatorPaid := some delegatorAmount }

/-- CheckAndAdvanceCycle (keeper.go): lazily initialise the first cycle,
stop below the supply threshold, and after HalvingCycleDuration start the
next cycle with the current supply as the new 100% snapshot and
distributedInCycle reset to zero. -/
def CheckAndAdvanceCycle (s : State) (p : Params) (now : ℤ) : State :=
  match s.info with
  | none => { s with info := some ⟨1, now, s.bank.supply, 0⟩ }
  | some info =>
    if s.bank.supply < MinimumSupplyThreshold then s
    else if p.halvingCycleDuration ≤ now - info.cycleStartTime then
      { s with info := some ⟨info.currentCycle + 1, now, s.bank.supply, 0⟩ }
    else s

/-- The scan of getLastDistributionTime (abci.go): latest starts at 0 and is
raised to every strictly larger record timestamp. -/
def latestTimestamp (records : List DistributionRecord) : ℤ :=
  records.foldl (fun latest r => max latest r.timestamp) 0

/-- getLastDistributionTime (abci.go): with no records yet, pretend the last
distribution was 31 days ago to force the first one; otherwise the latest
record timestamp. -/
def getLastDistributionTime (records : List DistributionRecord) (now : ℤ) : ℤ :=
  if records.isEmpty then now - 31 * 24 * 3600 else latestTimestamp records

/-- One per-block tick input: the block time, the bonded validator list as
the staking keeper reports it, and the external outcome of MintCoins. -/
structure TickInput where
  now : ℤ
  validators : List Validator
  mintOk : Bool
  deriving Repr, DecidableEq

/-- Observable outcome of one BeginBlocker tick. -/
structure TickResult where
  state : State
  distributed : Bool
  distErr : Bool
  valPayments : List ValPayment
  delegatorPaid : Option ℕ
  deriving Repr, DecidableEq

/-- BeginBlocker (abci.go): advance the cycle if due, then run the monthly
distribution when 30 days have passed since the last recorded distribution.
Errors from either call are logged and swallowed. -/
def BeginBlocker (s : State) (p : Params) (t : TickInput) : TickResult :=
  let s1 := CheckAndAdvanceCycle s p t.now
  let lastDistribution := getLastDistributionTime s1.records t.now
  if thirtyDays ≤ t.now - lastDistribution then
    let r := DistributeMonthlyRewards s1 p t.now t.validators t.mintOk
    ⟨r.state, true, r.err, r.valPayments, r.delegatorPaid⟩
  else
    ⟨s1, false, false, [], none⟩

/-- Iterated ticks: the state after running BeginBlocker once per block. -/
def runTicks (p : Params) (s : State) (ts : List TickInput) : State :=
  ts.foldl (fun st t => (BeginBlocker st p t).state) s

/-- Validity of the share parameters, as enforced by Params.Validate:
each share lies in [0, 1] and the three sum to exactly 1.0. -/
abbrev SharesValid (p : Params) : Prop :=
  p.validatorShareNum + p.delegatorShareNum + p.dexShareNum = decUnit

/-- Eligibility rule of the spec's ValidatorActivityTracker, stated from the
spec's words for comparison with the code: a validator is eligible iff its
inactive-day count in the current window is at most 10. -/
def isEligibleSpecModel (inactiveDaysThisWindow : ℕ) : Bool :=
  inactiveDaysThisWindow ≤ 10

/-- Whether a distribution record with the given timestamp and amount exists. -/
def hasRecordAt (records : List DistributionRecord) (ts : ℤ) (amt : ℕ) : Bool :=
  records.any (fun r => (r.timestamp == ts) && (r.amount == amt))

/-- Chronologically valid tick times: starting from a base time, each tick's
block time is at least the previous one (block time is monotone). -/
def validTimes : ℤ → List TickInput → Bool
  | _, [] => true
  | t0, x :: xs => decide (t0 ≤ x.now) && validTimes x.now xs

/-- The state's distributedInCycle is within 61 monthly amounts computed from
the cycle's full-supply snapshot (61 = the number of 30-day marks that fit in
the default 5-year cycle, days 0, 30, ..., 1800). -/
def distributedWithin61 (s : State) : Bool :=
  match s.info with
  | some i =>
    decide (i.distributedInCycle ≤ 61 * CalculateMonthlyReward i.totalFundsForCycle)
  | none => true

/-- Inductive invariant of the tick machine used to bound distributedInCycle:
at wall-clock time t, the cycle started no later than t, the supply never
exceeds the cycle's full-supply snapshot, and distributedInCycle is bounded
by one monthly amount (computed from the snapshot) per 30-day mark from the
cycle start up to the latest recorded distribution, which happened strictly
inside the cycle's duration. -/
def InvC4 (p : Params) (t : ℤ) (s : State) : Prop :=
  ∀ i, s.info = some i →
    i.cycleStartTime ≤ t ∧
    s.bank.supply ≤ i.totalFundsForCycle ∧
    (i.distributedInCycle = 0 ∨
      (s.records ≠ [] ∧
       i.cycleStartTime ≤ latestTimestamp s.records ∧
       latestTimestamp s.records - i.cycleStartTime < p.halvingCycleDuration ∧
       i.distributedInCycle
         ≤ ((latestTimestamp s.records - i.cycleStartTime).toNat / 2592000 + 1)
             * CalculateMonthlyReward i.totalFundsForCycle))

/-- A state one month into a cycle: supply 60,000 GXR, module account holding
10,000 GXR, one distribution on record at unix time 97,408,000. -/
def exampleState : State :=
  ⟨⟨6000000000000, 1000000000000⟩, some ⟨1, 0, 6000000000000, 0⟩,
    [⟨97408000, 15000000000, 1, 38⟩]⟩

/-- Sixty-one monthly ticks, 30 days apart, starting at unix time 0, with one
well-behaved bonded validator and a healthy ledger throughout. -/
def cexTicks : List TickInput :=
  (List.range 61).map (fun i => ⟨2592000 * (i : ℤ), [⟨true, true⟩], true⟩)

/-- Total of the three truncated buckets minted for a monthly amount m. -/
def mintedAmount (p : Params) (m : ℕ) : ℕ :=
  mulDecTrunc m p.validatorShareNum + mulDecTrunc m p.delegatorShareNum
    + mulDecTrunc m p.dexShareNum

/-! Arithmetic facts about Dec truncation and the monthly reward. -/

theorem decUnit_pos : 0 < decUnit := by norm_num [decUnit]

theorem mulDecTrunc_le (a : ℕ) {n : ℕ} (h : n ≤ decUnit) : mulDecTrunc a n ≤ a := by
  have h1 : a * n ≤ a * decUnit := Nat.mul_le_mul_left a h
  calc mulDecTrunc a n = a * n / decUnit := rfl
    _ ≤ a * decUnit / decUnit := Nat.div_le_div_right h1
    _ = a := Nat.mul_div_cancel a decUnit_pos

theorem mulDecTrunc_mono {a b : ℕ} (n : ℕ) (h : a ≤ b) :
    mulDecTrunc a n ≤ mulDecTrunc b n :=
  Nat.div_le_div_right (Nat.mul_le_mul_right n h)

theorem bucket_sum_le {vN dN xN : ℕ} (h : vN + dN + xN ≤ decUnit) (m : ℕ) :
    mulDecTrunc m vN + mulDecTrunc m dN + mulDecTrunc m xN ≤ m := by
  simp only [mulDecTrunc]
  have h1 : m * vN / decUnit * decUnit ≤ m * vN := Nat.div_mul_le_self _ _
  have h2 : m * dN / decUnit * decUnit ≤ m * dN := Nat.div_mul_le_self _ _
  have h3 : m * xN / decUnit * decUnit ≤ m * xN := Nat.div_mul_le_self _ _
  have hsum : (m * vN / decUnit + m * dN / decUnit + m * xN / decUnit) * decUnit
      ≤ m * decUnit := by
    calc (m * vN / decUnit + m * dN / decUnit + m * xN / decUnit) * decUnit
        = m * vN / decUnit * decUnit + m * dN / decUnit * decUnit
          + m * xN / decUnit * decUnit := by ring
      _ ≤ m * vN + m * dN + m * xN := by omega
      _ = m * (vN + dN + xN) := by ring
      _ ≤ m * decUnit := Nat.mul_le_mul_left m h
  exact Nat.le_of_mul_le_mul_right hsum decUnit_pos

theorem bucket_sum_le_of_valid {p : Params} (h : SharesValid p) (m : ℕ) :
    mulDecTrunc m p.validatorShareNum + mulDecTrunc m p.delegatorShareNum
      + mulDecTrunc m p.dexShareNum ≤ m :=
  bucket_sum_le (le_of_eq h) m

theorem CalculateMonthlyReward_le (s : ℕ) : CalculateMonthlyReward s ≤ s := by
  have h1 : mulDecTrunc s reductionRateNum ≤ s :=
    mulDecTrunc_le s (by norm_num [reductionRateNum, decUnit])
  calc CalculateMonthlyReward s = mulDecTrunc s reductionRateNum / 60 := rfl
    _ ≤ mulDecTrunc s reductionRateNum := Nat.div_le_self _ _
    _ ≤ s := h1

theorem CalculateMonthlyReward_mono {a b : ℕ} (h : a ≤ b) :
    CalculateMonthlyReward a ≤ CalculateMonthlyReward b :=
  Nat.div_le_div_right (mulDecTrunc_mono reductionRateNum h)

/-! Frame lemmas about the per-block pipeline. -/

theorem CheckAndAdvanceCycle_bank (s : State) (p : Params) (now : ℤ) :
    (CheckAndAdvanceCycle s p now).bank = s.bank := by
  obtain ⟨bk, io, rs⟩ := s
  unfold CheckAndAdvanceCycle
  cases io with
  | none => rfl
  | some info =>
    by_cases h1 : bk.supply < MinimumSupplyThreshold
    · simp [h1]
    · by_cases h2 : p.halvingCycleDuration ≤ now - info.cycleStartTime <;> simp [h1, h2]

theorem CheckAndAdvanceCycle_records (s : State) (p : Params) (now : ℤ) :
    (CheckAndAdvanceCycle s p now).records = s.records := by
  obtain ⟨bk, io, rs⟩ := s
  unfold CheckAndAdvanceCycle
  cases io with
  | none => rfl
  | some info =>
    by_cases h1 : bk.supply < MinimumSupplyThreshold
    · simp [h1]
    · by_cases h2 : p.halvingCycleDuration ≤ now - info.cycleStartTime <;> simp [h1, h2]

theorem CheckAndAdvanceCycle_isSome (s : State) (p : Params) (now : ℤ) :
    (CheckAndAdvanceCycle s p now).info.isSome = true := by
  obtain ⟨bk, io, rs⟩ := s
  unfold CheckAndAdvanceCycle
  cases io with
  | none => rfl
  | some info =>
    by_cases h1 : bk.supply < MinimumSupplyThreshold
    · simp [h1]
    · by_cases h2 : p.halvingCycleDuration ≤ now - info.cycleStartTime <;> simp [h1, h2]

theorem payValidators_supply (per : ℕ) (b : Bank) (i : ℕ) (vs : List Validator) :
    (payValidators per b i vs).1.supply = b.supply := by
  induction vs generalizing b i with
  | nil => rfl
  | cons v vs ih =>
    unfold payValidators
    by_cases h : (v.addrValid && v.sendOk && decide (per ≤ b.moduleBalance)) = true
    · rw [if_pos h]
      exact ih _ _
    · rw [if_neg h]
      exact ih _ _

theorem distributeToValidators_supply (b : Bank) (vs : List Validator) (amount : ℕ) :
    (distributeToValidators b vs amount).1.supply = b.supply := by
  unfold distributeToValidators
  by_cases h1 : vs.length = 0
  · simp [h1]
  · by_cases h2 : amount / vs.length = 0 <;>
      simp [h1, h2, payValidators_supply]

theorem DistributeMonthlyRewards_below (s : State) (p : Params) (now : ℤ)
    (vs : List Validator) (mk : Bool)
    (h : s.bank.supply < MinimumSupplyThreshold) :
    DistributeMonthlyRewards s p now vs mk =
      { state := s, err := false, valPayments := [], delegatorPaid := none } := by
  simp only [DistributeMonthlyRewards]
  rw [if_pos h]

theorem DistributeMonthlyRewards_err_or_frame (s : State) (p : Params) (now : ℤ)
    (vs : List Validator) (mk : Bool) :
    (DistributeMonthlyRewards s p now vs mk).err = false ∨
    ((DistributeMonthlyRewards s p now vs mk).state.info = s.info ∧
     (DistributeMonthlyRewards s p now vs mk).state.records = s.records ∧
     (DistributeMonthlyRewards s p now vs mk).delegatorPaid = none) := by
  simp only [DistributeMonthlyRewards]
  split
  · left; rfl
  · split
    · right; exact ⟨rfl, rfl, rfl⟩
    · split
      · right; exact ⟨rfl, rfl, rfl⟩
      · split
        · right; exact ⟨rfl, rfl, rfl⟩
        · split
          · right; exact ⟨rfl, rfl, rfl⟩
          · split
            · right; exact ⟨rfl, rfl, rfl⟩
            · left; rfl

theorem DistributeMonthlyRewards_success_or (s : State) (p : Params) (now : ℤ)
    (vs : List Validator) (mk : Bool) :
    (DistributeMonthlyRewards s p now vs mk).err = true ∨
    s.bank.supply < MinimumSupplyThreshold ∨
    ∃ bank3 ps,
      distributeToValidators
        ⟨s.bank.supply - CalculateMonthlyReward s.bank.supply
           + mintedAmount p (CalculateMonthlyReward s.bank.supply),
         s.bank.moduleBalance - CalculateMonthlyReward s.bank.supply
           + mintedAmount p (CalculateMonthlyReward s.bank.supply)⟩
        vs (mulDecTrunc (CalculateMonthlyReward s.bank.supply) p.validatorShareNum)
        = (bank3, false, ps) ∧
      DistributeMonthlyRewards s p now vs mk =
        { state :=
            ⟨⟨bank3.supply,
              bank3.moduleBalance
                - mulDecTrunc (CalculateMonthlyReward s.bank.supply) p.delegatorShareNum⟩,
             some { s.info.getD ⟨1, now, s.bank.supply, 0⟩ with
                      distributedInCycle :=
                        (s.info.getD ⟨1, now, s.bank.supply, 0⟩).distributedInCycle
                          + CalculateMonthlyReward s.bank.supply },
             SetDistributionRecord s.records
               ⟨now, CalculateMonthlyReward s.bank.supply,
                (s.info.getD ⟨1, now, s.bank.supply, 0⟩).currentCycle,
                getCurrentMonth now
                  (s.info.getD ⟨1, now, s.bank.supply, 0⟩).cycleStartTime⟩⟩,
          err := false, valPayments := ps,
          delegatorPaid :=
            some (mulDecTrunc (CalculateMonthlyReward s.bank.supply)
                    p.delegatorShareNum) } := by
  simp only [DistributeMonthlyRewards, mintedAmount]
  split
  · right; left; assumption
  · split
    · left; rfl
    · split
      · left; rfl
      · split
        · left; rfl
        · split
          · left; rfl
          · split
            · left; rfl
            · right; right
              refine ⟨_, _, ?_, rfl⟩
              assumption

theorem DistributeMonthlyRewards_supply_le (s : State) (p : Params) (now : ℤ)
    (vs : List Validator) (mk : Bool) (hp : SharesValid p) :
    (DistributeMonthlyRewards s p now vs mk).state.bank.supply ≤ s.bank.supply := by
  have hm : CalculateMonthlyReward s.bank.supply ≤ s.bank.supply :=
    CalculateMonthlyReward_le _
  have hb : mulDecTrunc (CalculateMonthlyReward s.bank.supply) p.validatorShareNum
      + mulDecTrunc (CalculateMonthlyReward s.bank.supply) p.delegatorShareNum
      + mulDecTrunc (CalculateMonthlyReward s.bank.supply) p.dexShareNum
      ≤ CalculateMonthlyReward s.bank.supply := bucket_sum_le_of_valid hp _
  simp only [DistributeMonthlyRewards]
  split
  · exact le_refl _
  · split
    · exact le_refl _
    · split
      · exact le_refl _
      · split
        · simp only []
          omega
        · split
          case _ bank3 ps heq =>
            have hs3 := distributeToValidators_supply
              ⟨s.bank.supply - CalculateMonthlyReward s.bank.supply
                 + (mulDecTrunc (CalculateMonthlyReward s.bank.supply) p.validatorShareNum
                    + mulDecTrunc (CalculateMonthlyReward s.bank.supply) p.delegatorShareNum
                    + mulDecTrunc (CalculateMonthlyReward s.bank.supply) p.dexShareNum),
               s.bank.moduleBalance - CalculateMonthlyReward s.bank.supply
                 + (mulDecTrunc (CalculateMonthlyReward s.bank.supply) p.validatorShareNum
                    + mulDecTrunc (CalculateMonthlyReward s.bank.supply) p.delegatorShareNum
                    + mulDecTrunc (CalculateMonthlyReward s.bank.supply) p.dexShareNum)⟩
              vs (mulDecTrunc (CalculateMonthlyReward s.bank.supply) p.validatorShareNum)
            rw [heq] at hs3
            dsimp only at hs3 ⊢
            omega
          case _ bank3 ps heq =>
            have hs3 := distributeToValidators_supply
              ⟨s.bank.supply - CalculateMonthlyReward s.bank.supply
                 + (mulDecTrunc (CalculateMonthlyReward s.bank.supply) p.validatorShareNum
                    + mulDecTrunc (CalculateMonthlyReward s.bank.supply) p.delegatorShareNum
                    + mulDecTrunc (CalculateMonthlyReward s.bank.supply) p.dexShareNum),
               s.bank.moduleBalance - CalculateMonthlyReward s.bank.supply
                 + (mulDecTrunc (CalculateMonthlyReward s.bank.supply) p.validatorShareNum
                    + mulDecTrunc (CalculateMonthlyReward s.bank.supply) p.delegatorShareNum
                    + mulDecTrunc (CalculateMonthlyReward s.bank.supply) p.dexShareNum)⟩
              vs (mulDecTrunc (CalculateMonthlyReward s.bank.supply) p.validatorShareNum)
            rw [heq] at hs3
            dsimp only at hs3
            split
            · dsimp only
              omega
            · dsimp only
              omega

theorem hasRecordAt_set (rs : List DistributionRecord) (r : DistributionRecord) :
    hasRecordAt (SetDistributionRecord rs r) r.timestamp r.amount = true := by
  unfold SetDistributionRecord hasRecordAt
  split
  case isTrue h =>
    rw [List.any_eq_true] at h ⊢
    obtain ⟨q, hq, hts⟩ := h
    refine ⟨r, ?_, by simp⟩
    rw [List.mem_map]
    refine ⟨q, hq, ?_⟩
    rw [if_pos (by simpa using hts)]
  case isFalse h =>
    rw [List.any_eq_true]
    exact ⟨r, by simp, by simp⟩

/-- C9: for every monthly amount the three truncated buckets sum to at most
the amount whenever the shares are valid (sum exactly 1.0), and at
monthlyAmount 531,250 with the default 70/20/10 shares the buckets are
exactly 371,875 / 106,250 / 53,125, summing to exactly 531,250. -/
theorem C9_bucket_sum (p : Params) (hval : SharesValid p) (m : ℕ) :
    mulDecTrunc m p.validatorShareNum + mulDecTrunc m p.delegatorShareNum
      + mulDecTrunc m p.dexShareNum ≤ m ∧
    (mulDecTrunc 531250 DefaultParams.validatorShareNum = 371875 ∧
     mulDecTrunc 531250 DefaultParams.delegatorShareNum = 106250 ∧
     mulDecTrunc 531250 DefaultParams.dexShareNum = 53125 ∧
     371875 + 106250 + 53125 = 531250) :=
  ⟨bucket_sum_le_of_valid hval m, by decide⟩

/-- Witness for C9 at the default parameters and monthlyAmount 531,250. -/
theorem C9_bucket_sum_witness :
    SharesValid DefaultParams ∧
    mulDecTrunc 531250 DefaultParams.validatorShareNum
      + mulDecTrunc 531250 DefaultParams.delegatorShareNum
      + mulDecTrunc 531250 DefaultParams.dexShareNum ≤ 531250 :=
  ⟨by decide, (C9_bucket_sum DefaultParams (by decide) 531250).1⟩

/-- C1 counterexample: for a supply of 85,000,000 the 15% earmark is
12,750,000, but CalculateMonthlyReward divides it by 60, giving 212,500 -
not the claimed halvingFund / 24 = 531,250. -/
theorem C1_counterexample :
    mulDecTrunc 85000000 reductionRateNum = 12750000 ∧
    CalculateMonthlyReward 85000000 = 212500 ∧
    12750000 / 24 = 531250 ∧
    CalculateMonthlyReward 85000000 ≠ 531250 := by decide

/-- C1 amended: every successful monthly distribution records and burns
exactly CalculateMonthlyReward of the live pre-burn supply, i.e.
trunc(trunc(0.15 * supply) / 60), recomputed from the current supply at each
distribution (not a fixed snapshot fund divided by 24), and the supply moves
by exactly that burn minus the three minted buckets. -/
theorem C1_amended (s : State) (p : Params) (now : ℤ) (vs : List Validator)
    (mk : Bool) (hs : MinimumSupplyThreshold ≤ s.bank.supply)
    (hr : (DistributeMonthlyRewards s p now vs mk).err = false) :
    hasRecordAt (DistributeMonthlyRewards s p now vs mk).state.records now
      (CalculateMonthlyReward s.bank.supply) = true ∧
    (DistributeMonthlyRewards s p now vs mk).state.bank.supply
      = s.bank.supply - CalculateMonthlyReward s.bank.supply
        + mintedAmount p (CalculateMonthlyReward s.bank.supply) := by
  rcases DistributeMonthlyRewards_success_or s p now vs mk with h | h | ⟨bank3, ps, heq, hres⟩
  · rw [hr] at h
    exact absurd h (by simp)
  · exact absurd h (by omega)
  · have hs3 := distributeToValidators_supply
      ⟨s.bank.supply - CalculateMonthlyReward s.bank.supply
         + mintedAmount p (CalculateMonthlyReward s.bank.supply),
       s.bank.moduleBalance - CalculateMonthlyReward s.bank.supply
         + mintedAmount p (CalculateMonthlyReward s.bank.supply)⟩
      vs (mulDecTrunc (CalculateMonthlyReward s.bank.supply) p.validatorShareNum)
    rw [heq] at hs3
    dsimp only at hs3
    constructor
    · rw [hres]
      exact hasRecordAt_set s.records _
    · rw [hres]
      dsimp only
      exact hs3

/-- Witness for C1 amended: one concrete successful distribution. -/
theorem C1_amended_witness :
    MinimumSupplyThreshold ≤ exampleState.bank.supply ∧
    (DistributeMonthlyRewards exampleState DefaultParams 100000000
        [⟨true, true⟩] true).err = false ∧
    (hasRecordAt (DistributeMonthlyRewards exampleState DefaultParams 100000000
        [⟨true, true⟩] true).state.records 100000000
        (CalculateMonthlyReward exampleState.bank.supply) = true ∧
     (DistributeMonthlyRewards exampleState DefaultParams 100000000
        [⟨true, true⟩] true).state.bank.supply
       = exampleState.bank.supply - CalculateMonthlyReward exampleState.bank.supply
         + mintedAmount DefaultParams (CalculateMonthlyReward exampleState.bank.supply)) :=
  ⟨by decide, by decide,
    C1_amended exampleState DefaultParams 100000000 [⟨true, true⟩] true
      (by decide) (by decide)⟩

/-- C2 counterexample: a tick well past the claimed 2-year distribution
period (63,072,000 s) still performs a full monthly distribution - at month
39 of the cycle a record is appended and a validator is paid - because the
code has no distributionActive flag or pause phase at all. -/
theorem C2_counterexample :
    (63072000 : ℤ) < 100000000 - 0 ∧
    (BeginBlocker exampleState DefaultParams
      ⟨100000000, [⟨true, true⟩], true⟩).distributed = true ∧
    (BeginBlocker exampleState DefaultParams
      ⟨100000000, [⟨true, true⟩], true⟩).distErr = false ∧
    (BeginBlocker exampleState DefaultParams
      ⟨100000000, [⟨true, true⟩], true⟩).valPayments = [⟨0, 10500000000⟩] ∧
    hasRecordAt (BeginBlocker exampleState DefaultParams
      ⟨100000000, [⟨true, true⟩], true⟩).state.records 100000000 15000000000 = true ∧
    getCurrentMonth 100000000 0 = 39 := by decide

/-- C2 amended: the tick hands control to DistributeMonthlyRewards exactly
when the record store is empty (which forces the first distribution) or 30
days have elapsed since the latest recorded distribution; no
distributionActive flag or pause phase is consulted. -/
theorem C2_amended (s : State) (p : Params) (t : TickInput) :
    (BeginBlocker s p t).distributed = true ↔
      (s.records.isEmpty = true ∨
        thirtyDays ≤ t.now - latestTimestamp s.records) := by
  simp only [BeginBlocker, getLastDistributionTime, CheckAndAdvanceCycle_records]
  by_cases he : s.records.isEmpty = true
  · rw [if_pos he]
    have hg : thirtyDays ≤ t.now - (t.now - 31 * 24 * 3600) := by
      simp only [thirtyDays]
      omega
    rw [if_pos hg]
    simp [he]
  · rw [if_neg he]
    by_cases hg : thirtyDays ≤ t.now - latestTimestamp s.records
    · rw [if_pos hg]
      simp [hg]
    · rw [if_neg hg]
      simp [he, hg]

/-- C5 counterexample: when MintCoins fails right after the burn succeeded,
the error is reported but the burn persists: the supply is left reduced by
the full monthly amount with nothing minted or recorded - the burn-then-mint
sequence is not failure-atomic. -/
theorem C5_counterexample :
    (DistributeMonthlyRewards exampleState DefaultParams 100000000
      [⟨true, true⟩] false).err = true ∧
    (DistributeMonthlyRewards exampleState DefaultParams 100000000
      [⟨true, true⟩] false).state.bank.supply
      = exampleState.bank.supply - 15000000000 ∧
    (DistributeMonthlyRewards exampleState DefaultParams 100000000
      [⟨true, true⟩] false).state.records = exampleState.records ∧
    (DistributeMonthlyRewards exampleState DefaultParams 100000000
      [⟨true, true⟩] false).delegatorPaid = none := by decide

/-- C5 amended: burn and mint failures propagate as errors and on any
reported failure no distribution record, halving-info update, or delegator
transfer is committed; the burn itself, however, is not rolled back. -/
theorem C5_amended (s : State) (p : Params) (now : ℤ) (vs : List Validator)
    (mk : Bool) (h : (DistributeMonthlyRewards s p now vs mk).err = true) :
    (DistributeMonthlyRewards s p now vs mk).state.info = s.info ∧
    (DistributeMonthlyRewards s p now vs mk).state.records = s.records ∧
    (DistributeMonthlyRewards s p now vs mk).delegatorPaid = none := by
  rcases DistributeMonthlyRewards_err_or_frame s p now vs mk with hf | hf
  · rw [h] at hf
    exact absurd hf (by simp)
  · exact hf

/-- Witness for C5 amended at the concrete mint-failure input. -/
theorem C5_amended_witness :
    (DistributeMonthlyRewards exampleState DefaultParams 100000000
      [⟨true, true⟩] false).err = true ∧
    ((DistributeMonthlyRewards exampleState DefaultParams 100000000
        [⟨true, true⟩] false).state.info = exampleState.info ∧
     (DistributeMonthlyRewards exampleState DefaultParams 100000000
        [⟨true, true⟩] false).state.records = exampleState.records ∧
     (DistributeMonthlyRewards exampleState DefaultParams 100000000
        [⟨true, true⟩] false).delegatorPaid = none) :=
  ⟨by decide,
    C5_amended exampleState DefaultParams 100000000 [⟨true, true⟩] false (by decide)⟩

/-- C6: once a distribution is on record, any tick strictly within 30 days
of the latest recorded distribution performs no distribution at all - no
burn, no mint, no validator or delegator transfer, bank and records
untouched. -/
theorem C6_no_double (s : State) (p : Params) (t : TickInput)
    (h1 : s.records.isEmpty = false)
    (h2 : t.now - latestTimestamp s.records < thirtyDays) :
    (BeginBlocker s p t).distributed = false ∧
    (BeginBlocker s p t).state.bank = s.bank ∧
    (BeginBlocker s p t).state.records = s.records ∧
    (BeginBlocker s p t).valPayments = [] ∧
    (BeginBlocker s p t).delegatorPaid = none := by
  simp only [BeginBlocker, getLastDistributionTime, CheckAndAdvanceCycle_records]
  have hin : ¬(s.records.isEmpty = true) := by simp [h1]
  rw [if_neg hin]
  have hgate : ¬(thirtyDays ≤ t.now - latestTimestamp s.records) := not_le.mpr h2
  rw [if_neg hgate]
  exact ⟨rfl, CheckAndAdvanceCycle_bank s p t.now,
    CheckAndAdvanceCycle_records s p t.now, rfl, rfl⟩

/-- Witness for C6: a second tick 100 seconds after the recorded
distribution does nothing. -/
theorem C6_no_double_witness :
    exampleState.records.isEmpty = false ∧
    (97408100 : ℤ) - latestTimestamp exampleState.records < thirtyDays ∧
    ((BeginBlocker exampleState DefaultParams
        ⟨97408100, [⟨true, true⟩], true⟩).distributed = false ∧
     (BeginBlocker exampleState DefaultParams
        ⟨97408100, [⟨true, true⟩], true⟩).state.bank = exampleState.bank ∧
     (BeginBlocker exampleState DefaultParams
        ⟨97408100, [⟨true, true⟩], true⟩).state.records = exampleState.records ∧
     (BeginBlocker exampleState DefaultParams
        ⟨97408100, [⟨true, true⟩], true⟩).valPayments = [] ∧
     (BeginBlocker exampleState DefaultParams
        ⟨97408100, [⟨true, true⟩], true⟩).delegatorPaid = none) :=
  ⟨by decide, by decide,
    C6_no_double exampleState DefaultParams ⟨97408100, [⟨true, true⟩], true⟩
      (by decide) (by decide)⟩

theorem BeginBlocker_supply_le (s : State) (p : Params) (t : TickInput)
    (hp : SharesValid p) :
    (BeginBlocker s p t).state.bank.supply ≤ s.bank.supply := by
  simp only [BeginBlocker]
  split
  · dsimp only
    have h := DistributeMonthlyRewards_supply_le (CheckAndAdvanceCycle s p t.now)
      p t.now t.validators t.mintOk hp
    rw [CheckAndAdvanceCycle_bank] at h
    exact h
  · dsimp only
    rw [CheckAndAdvanceCycle_bank]

/-- C3: across any sequence of ticks, under valid share parameters (shares
summing to exactly 1.0), the total supply is monotonically non-increasing:
every distribution burns the monthly amount and mints back only the three
truncated buckets, whose sum never exceeds the burn, and no other tick
action touches the supply. -/
theorem C3_supply_monotone (p : Params) (hp : SharesValid p) (s : State)
    (ts : List TickInput) :
    (runTicks p s ts).bank.supply ≤ s.bank.supply := by
  induction ts generalizing s with
  | nil => exact le_refl _
  | cons t ts ih =>
    calc (runTicks p s (t :: ts)).bank.supply
        = (runTicks p (BeginBlocker s p t).state ts).bank.supply := rfl
      _ ≤ (BeginBlocker s p t).state.bank.supply := ih _
      _ ≤ s.bank.supply := BeginBlocker_supply_le s p t hp

/-- Witness for C3 on a concrete two-tick run. -/
theorem C3_supply_monotone_witness :
    SharesValid DefaultParams ∧
    (runTicks DefaultParams exampleState
      [⟨100000000, [⟨true, true⟩], true⟩,
       ⟨103000000, [⟨true, true⟩], false⟩]).bank.supply
      ≤ exampleState.bank.supply :=
  ⟨by decide, C3_supply_monotone DefaultParams (by decide) exampleState _⟩

/-- C8 counterexample: with zero bonded validators the distribution reports
an error rather than forfeiting the bucket: distributedInCycle is not
updated, no record is appended, and no delegator transfer happens - the
remaining steps do not run. -/
theorem C8_counterexample :
    (DistributeMonthlyRewards exampleState DefaultParams 100000000 [] true).err
      = true ∧
    (DistributeMonthlyRewards exampleState DefaultParams 100000000 [] true).state.info
      = exampleState.info ∧
    (DistributeMonthlyRewards exampleState DefaultParams 100000000 [] true).state.records
      = exampleState.records ∧
    (DistributeMonthlyRewards exampleState DefaultParams 100000000 [] true).delegatorPaid
      = none := by decide

/-- C8 amended: an empty bonded-validator set is fatal to the distribution:
distributeToValidators returns an error which DistributeMonthlyRewards
propagates, skipping the delegator transfer, the distributedInCycle update
and the record append - while the burn and the mint have already executed,
leaving the supply changed by burn minus minted buckets. -/
theorem C8_amended (s : State) (p : Params) (now : ℤ)
    (hs : MinimumSupplyThreshold ≤ s.bank.supply)
    (hm : CalculateMonthlyReward s.bank.supply ≠ 0)
    (hb : CalculateMonthlyReward s.bank.supply ≤ s.bank.moduleBalance) :
    (DistributeMonthlyRewards s p now [] true).err = true ∧
    (DistributeMonthlyRewards s p now [] true).state.info = s.info ∧
    (DistributeMonthlyRewards s p now [] true).state.records = s.records ∧
    (DistributeMonthlyRewards s p now [] true).delegatorPaid = none ∧
    (DistributeMonthlyRewards s p now [] true).state.bank.supply
      = s.bank.supply - CalculateMonthlyReward s.bank.supply
        + mintedAmount p (CalculateMonthlyReward s.bank.supply) := by
  simp only [DistributeMonthlyRewards, mintedAmount]
  rw [if_neg (by omega), if_neg (by simpa using hm), if_neg (by omega)]
  simp [distributeToValidators]

/-- Witness for C8 amended at a concrete empty-validator distribution. -/
theorem C8_amended_witness :
    MinimumSupplyThreshold ≤ exampleState.bank.supply ∧
    CalculateMonthlyReward exampleState.bank.supply ≠ 0 ∧
    CalculateMonthlyReward exampleState.bank.supply
      ≤ exampleState.bank.moduleBalance ∧
    ((DistributeMonthlyRewards exampleState DefaultParams 200000000 [] true).err
       = true ∧
     (DistributeMonthlyRewards exampleState DefaultParams 200000000
        [] true).state.info = exampleState.info ∧
     (DistributeMonthlyRewards exampleState DefaultParams 200000000
        [] true).state.records = exampleState.records ∧
     (DistributeMonthlyRewards exampleState DefaultParams 200000000
        [] true).delegatorPaid = none ∧
     (DistributeMonthlyRewards exampleState DefaultParams 200000000
        [] true).state.bank.supply
       = exampleState.bank.supply - CalculateMonthlyReward exampleState.bank.supply
         + mintedAmount DefaultParams
             (CalculateMonthlyReward exampleState.bank.supply)) :=
  ⟨by decide, by decide, by decide,
    C8_amended exampleState DefaultParams 200000000 (by decide) (by decide)
      (by decide)⟩

theorem payValidators_all (per : ℕ) (b : Bank) (i : ℕ) (vs : List Validator)
    (hall : ∀ v ∈ vs, v.addrValid = true ∧ v.sendOk = true)
    (hbal : vs.length * per ≤ b.moduleBalance) :
    (payValidators per b i vs).2
      = (List.range vs.length).map (fun j => ⟨i + j, per⟩) := by
  induction vs generalizing b i with
  | nil => rfl
  | cons v vs ih =>
    have hv := hall v (List.mem_cons_self v vs)
    rw [List.length_cons, Nat.succ_mul] at hbal
    have hle : per ≤ b.moduleBalance := by omega
    unfold payValidators
    rw [if_pos (by simp [hv.1, hv.2, hle])]
    have hrest := ih ⟨b.supply, b.moduleBalance - per⟩ (i + 1)
      (fun w hw => hall w (List.mem_cons_of_mem v hw)) (by dsimp only; omega)
    dsimp only
    rw [hrest]
    simp only [List.length_cons]
    rw [List.range_succ_eq_map, List.map_cons, List.map_map]
    refine congrArg₂ _ (by simp) ?_
    apply List.map_congr_left
    intro j hj
    simp only [Function.comp_apply, ValPayment.mk.injEq]
    exact ⟨by omega, trivial⟩

/-- C7 counterexample: the second bonded validator is the one the claim
stipulates to be ineligible (inactiveDaysThisWindow = 11, so the spec's
eligibility rule rejects it), yet the code pays it its full equal share:
distributeToValidators consults no activity record at all. -/
theorem C7_counterexample :
    isEligibleSpecModel 11 = false ∧
    (distributeToValidators ⟨6000000000000, 1000000000000⟩
      [⟨true, true⟩, ⟨true, true⟩] 371875).2.1 = false ∧
    (distributeToValidators ⟨6000000000000, 1000000000000⟩
      [⟨true, true⟩, ⟨true, true⟩] 371875).2.2
      = [⟨0, 185937⟩, ⟨1, 185937⟩] := by decide

/-- C7 amended: the validator bucket is split equally over ALL bonded
validators with no eligibility partition: whenever every bonded validator
has a parseable address and a working transfer, and the module balance
covers the split, every one of them - regardless of any inactivity count -
receives exactly amount / n. -/
theorem C7_amended (b : Bank) (vs : List Validator) (amount : ℕ)
    (hn : ¬vs.length = 0)
    (hper : ¬amount / vs.length = 0)
    (hall : ∀ v ∈ vs, v.addrValid = true ∧ v.sendOk = true)
    (hbal : vs.length * (amount / vs.length) ≤ b.moduleBalance) :
    (distributeToValidators b vs amount).2.1 = false ∧
    (distributeToValidators b vs amount).2.2
      = (List.range vs.length).map (fun j => ⟨j, amount / vs.length⟩) := by
  simp only [distributeToValidators]
  rw [if_neg hn, if_neg hper]
  refine ⟨rfl, ?_⟩
  dsimp only
  rw [payValidators_all (amount / vs.length) b 0 vs hall hbal]
  simp

/-- Witness for C7 amended: two bonded validators each receive 185,937. -/
theorem C7_amended_witness :
    ¬([⟨true, true⟩, ⟨true, true⟩] : List Validator).length = 0 ∧
    ¬371875 / ([⟨true, true⟩, ⟨true, true⟩] : List Validator).length = 0 ∧
    ((distributeToValidators ⟨5000000000000, 900000000000⟩
        [⟨true, true⟩, ⟨true, true⟩] 371875).2.1 = false ∧
     (distributeToValidators ⟨5000000000000, 900000000000⟩
        [⟨true, true⟩, ⟨true, true⟩] 371875).2.2
       = (List.range ([⟨true, true⟩, ⟨true, true⟩] : List Validator).length).map
           (fun j => ⟨j, 371875 / ([⟨true, true⟩, ⟨true, true⟩] :
              List Validator).length⟩)) :=
  ⟨by decide, by decide,
    C7_amended ⟨5000000000000, 900000000000⟩ [⟨true, true⟩, ⟨true, true⟩] 371875
      (by decide) (by decide) (by decide) (by decide)⟩

/-- C10: when the validator bucket divided by the number of bonded
validators truncates to zero, distributeToValidators succeeds without a
single transfer, the whole bucket silently stays in the module account, and
the distribution still completes: no error, distributedInCycle grows by the
monthly amount, and a DistributionRecord is appended. -/
theorem C10_zero_per_validator (s : State) (p : Params) (now : ℤ)
    (vs : List Validator)
    (hs : MinimumSupplyThreshold ≤ s.bank.supply)
    (hm : ¬CalculateMonthlyReward s.bank.supply = 0)
    (hb : CalculateMonthlyReward s.bank.supply ≤ s.bank.moduleBalance)
    (hn : ¬vs.length = 0)
    (hv : mulDecTrunc (CalculateMonthlyReward s.bank.supply) p.validatorShareNum
            < vs.length) :
    (DistributeMonthlyRewards s p now vs true).err = false ∧
    (DistributeMonthlyRewards s p now vs true).valPayments = [] ∧
    hasRecordAt (DistributeMonthlyRewards s p now vs true).state.records now
      (CalculateMonthlyReward s.bank.supply) = true ∧
    ((DistributeMonthlyRewards s p now vs true).state.info.map
        HalvingInfo.distributedInCycle).getD 0
      = (s.info.map HalvingInfo.distributedInCycle).getD 0
        + CalculateMonthlyReward s.bank.supply := by
  have hdiv : mulDecTrunc (CalculateMonthlyReward s.bank.supply)
      p.validatorShareNum / vs.length = 0 := Nat.div_eq_of_lt hv
  have heq : distributeToValidators
      ⟨s.bank.supply - CalculateMonthlyReward s.bank.supply
         + (mulDecTrunc (CalculateMonthlyReward s.bank.supply) p.validatorShareNum
            + mulDecTrunc (CalculateMonthlyReward s.bank.supply) p.delegatorShareNum
            + mulDecTrunc (CalculateMonthlyReward s.bank.supply) p.dexShareNum),
       s.bank.moduleBalance - CalculateMonthlyReward s.bank.supply
         + (mulDecTrunc (CalculateMonthlyReward s.bank.supply) p.validatorShareNum
            + mulDecTrunc (CalculateMonthlyReward s.bank.supply) p.delegatorShareNum
            + mulDecTrunc (CalculateMonthlyReward s.bank.supply) p.dexShareNum)⟩
      vs (mulDecTrunc (CalculateMonthlyReward s.bank.supply) p.validatorShareNum)
      = (⟨s.bank.supply - CalculateMonthlyReward s.bank.supply
            + (mulDecTrunc (CalculateMonthlyReward s.bank.supply) p.validatorShareNum
               + mulDecTrunc (CalculateMonthlyReward s.bank.supply) p.delegatorShareNum
               + mulDecTrunc (CalculateMonthlyReward s.bank.supply) p.dexShareNum),
          s.bank.moduleBalance - CalculateMonthlyReward s.bank.supply
            + (mulDecTrunc (CalculateMonthlyReward s.bank.supply) p.validatorShareNum
               + mulDecTrunc (CalculateMonthlyReward s.bank.supply) p.delegatorShareNum
               + mulDecTrunc (CalculateMonthlyReward s.bank.supply) p.dexShareNum)⟩,
         false, []) := by
    simp only [distributeToValidators]
    rw [if_neg hn, if_pos hdiv]
  simp only [DistributeMonthlyRewards]
  rw [if_neg (by omega), if_neg hm, if_neg (by omega)]
  simp only [Bool.not_true]
  rw [if_neg (by simp)]
  rw [heq]
  dsimp only
  rw [if_neg (by omega)]
  refine ⟨rfl, rfl, hasRecordAt_set s.records _, ?_⟩
  rcases hinfo : s.info with _ | i <;> simp [hinfo]

/-- Witness for C10: with a tiny (but Validate-acceptable) validator share
of 10^-18, the bucket truncates to zero against one bonded validator and the
distribution still completes with a record of 250,000,000 ugen. -/
theorem C10_zero_per_validator_witness :
    MinimumSupplyThreshold
      ≤ (⟨⟨100000000000, 1000000000000⟩, some ⟨1, 0, 100000000000, 0⟩, []⟩ :
          State).bank.supply ∧
    ¬CalculateMonthlyReward 100000000000 = 0 ∧
    CalculateMonthlyReward 100000000000 ≤ 1000000000000 ∧
    ¬([⟨true, true⟩] : List Validator).length = 0 ∧
    mulDecTrunc (CalculateMonthlyReward 100000000000) 1
      < ([⟨true, true⟩] : List Validator).length ∧
    ((DistributeMonthlyRewards
        ⟨⟨100000000000, 1000000000000⟩, some ⟨1, 0, 100000000000, 0⟩, []⟩
        ⟨157680000, 1, 1, 999999999999999998⟩ 100 [⟨true, true⟩] true).err = false ∧
     (DistributeMonthlyRewards
        ⟨⟨100000000000, 1000000000000⟩, some ⟨1, 0, 100000000000, 0⟩, []⟩
        ⟨157680000, 1, 1, 999999999999999998⟩ 100 [⟨true, true⟩]
          true).valPayments = [] ∧
     hasRecordAt (DistributeMonthlyRewards
        ⟨⟨100000000000, 1000000000000⟩, some ⟨1, 0, 100000000000, 0⟩, []⟩
        ⟨157680000, 1, 1, 999999999999999998⟩ 100 [⟨true, true⟩]
          true).state.records 100 (CalculateMonthlyReward 100000000000) = true ∧
     ((DistributeMonthlyRewards
        ⟨⟨100000000000, 1000000000000⟩, some ⟨1, 0, 100000000000, 0⟩, []⟩
        ⟨157680000, 1, 1, 999999999999999998⟩ 100 [⟨true, true⟩]
          true).state.info.map HalvingInfo.distributedInCycle).getD 0
       = ((⟨⟨100000000000, 1000000000000⟩, some ⟨1, 0, 100000000000, 0⟩, []⟩ :
            State).info.map HalvingInfo.distributedInCycle).getD 0
         + CalculateMonthlyReward 100000000000) :=
  ⟨by decide, by decide, by decide, by decide, by decide,
    C10_zero_per_validator
      ⟨⟨100000000000, 1000000000000⟩, some ⟨1, 0, 100000000000, 0⟩, []⟩
      ⟨157680000, 1, 1, 999999999999999998⟩ 100 [⟨true, true⟩]
      (by decide) (by decide) (by decide) (by decide) (by decide)⟩

/-! Facts about the latest-record scan and record insertion, feeding the
bound on distributedInCycle. -/

theorem foldl_max_le_init (rs : List DistributionRecord) (acc : ℤ) :
    acc ≤ rs.foldl (fun latest r => max latest r.timestamp) acc := by
  induction rs generalizing acc with
  | nil => exact le_refl _
  | cons r rs ih => exact le_trans (le_max_left _ _) (ih _)

theorem le_foldl_max (rs : List DistributionRecord) (acc : ℤ)
    (r : DistributionRecord) (h : r ∈ rs) :
    r.timestamp ≤ rs.foldl (fun latest q => max latest q.timestamp) acc := by
  induction rs generalizing acc with
  | nil => cases h
  | cons q qs ih =>
    rcases List.mem_cons.mp h with h1 | h2
    · subst h1
      exact le_trans (le_max_right _ _) (foldl_max_le_init qs _)
    · exact ih _ h2

theorem le_latestTimestamp {rs : List DistributionRecord} {r : DistributionRecord}
    (h : r ∈ rs) : r.timestamp ≤ latestTimestamp rs :=
  le_foldl_max rs 0 r h

theorem latestTimestamp_nonneg (rs : List DistributionRecord) :
    0 ≤ latestTimestamp rs :=
  foldl_max_le_init rs 0

theorem latestTimestamp_append (rs : List DistributionRecord)
    (r : DistributionRecord) :
    latestTimestamp (rs ++ [r]) = max (latestTimestamp rs) r.timestamp := by
  unfold latestTimestamp
  rw [List.foldl_append]
  rfl

theorem SetDistributionRecord_fresh (rs : List DistributionRecord)
    (r : DistributionRecord) (h : ∀ q ∈ rs, q.timestamp ≠ r.timestamp) :
    SetDistributionRecord rs r = rs ++ [r] := by
  unfold SetDistributionRecord
  rw [if_neg]
  simp only [List.any_eq_true, decide_eq_true_eq, not_exists, not_and]
  exact h

theorem foldl_max_le_bound (bound : ℤ) :
    ∀ (rs : List DistributionRecord) (acc : ℤ), acc ≤ bound →
      (∀ q ∈ rs, q.timestamp ≤ bound) →
      rs.foldl (fun latest r => max latest r.timestamp) acc ≤ bound := by
  intro rs
  induction rs with
  | nil =>
    intro acc ha _
    exact ha
  | cons q qs ih =>
    intro acc ha h
    exact ih _ (max_le ha (h q (List.mem_cons_self q qs)))
      (fun w hw => h w (List.mem_cons_of_mem q hw))

theorem latestTimestamp_le_bound {rs : List DistributionRecord} {bound : ℤ}
    (h0 : 0 ≤ bound) (h : ∀ q ∈ rs, q.timestamp ≤ bound) :
    latestTimestamp rs ≤ bound :=
  foldl_max_le_bound bound rs 0 h0 h

/-- After inserting a record strictly newer than everything on file, the
latest timestamp is the new record's. -/
theorem latestTimestamp_set_fresh (rs : List DistributionRecord)
    (r : DistributionRecord) (hnew : ∀ q ∈ rs, q.timestamp < r.timestamp)
    (h0 : 0 ≤ r.timestamp) :
    latestTimestamp (SetDistributionRecord rs r) = r.timestamp := by
  rw [SetDistributionRecord_fresh rs r (fun q hq => ne_of_lt (hnew q hq)),
    latestTimestamp_append]
  exact max_eq_right (latestTimestamp_le_bound h0 (fun q hq => (hnew q hq).le))

/-- Cycle advancement preserves the invariant and leaves behind a state
whose cycle either started within the duration window of the tick time or
whose supply is below the stop threshold. -/
theorem CheckAndAdvanceCycle_inv (p : Params) (hd : 0 < p.halvingCycleDuration)
    (t now : ℤ) (htn : t ≤ now) (s : State) (hs : InvC4 p t s) :
    InvC4 p now (CheckAndAdvanceCycle s p now) ∧
    (∀ i1, (CheckAndAdvanceCycle s p now).info = some i1 →
      s.bank.supply < MinimumSupplyThreshold ∨
      now - i1.cycleStartTime < p.halvingCycleDuration) := by
  obtain ⟨bk, io, rs⟩ := s
  unfold CheckAndAdvanceCycle
  cases io with
  | none =>
    dsimp only
    refine ⟨?_, ?_⟩
    · intro i hi
      injection hi with hi
      subst hi
      exact ⟨le_refl now, le_refl _, Or.inl rfl⟩
    · intro i1 hi1
      injection hi1 with hi1
      subst hi1
      right
      dsimp only
      omega
  | some info =>
    dsimp only
    by_cases h1 : bk.supply < MinimumSupplyThreshold
    · rw [if_pos h1]
      refine ⟨?_, fun _ _ => Or.inl h1⟩
      intro i hi
      obtain ⟨ha, hb, hc⟩ := hs i hi
      exact ⟨le_trans ha htn, hb, hc⟩
    · rw [if_neg h1]
      by_cases h2 : p.halvingCycleDuration ≤ now - info.cycleStartTime
      · rw [if_pos h2]
        refine ⟨?_, ?_⟩
        · intro i hi
          injection hi with hi
          subst hi
          exact ⟨le_refl now, le_refl _, Or.inl rfl⟩
        · intro i1 hi1
          injection hi1 with hi1
          subst hi1
          right
          dsimp only
          omega
      · rw [if_neg h2]
        refine ⟨?_, ?_⟩
        · intro i hi
          obtain ⟨ha, hb, hc⟩ := hs i hi
          exact ⟨le_trans ha htn, hb, hc⟩
        · intro i1 hi1
          injection hi1 with hi1
          subst hi1
          right
          omega

/-- Inserting the new record at the tick time when the 30-day gate passed:
the latest timestamp becomes the tick time, and the store is nonempty. -/
theorem records_set_fresh_latest (rs : List DistributionRecord) (now : ℤ)
    (hn0 : 0 ≤ now) (r : DistributionRecord) (hts : r.timestamp = now)
    (hgate : thirtyDays ≤ now - getLastDistributionTime rs now) :
    latestTimestamp (SetDistributionRecord rs r) = now ∧
    SetDistributionRecord rs r ≠ [] ∧
    (rs ≠ [] → latestTimestamp rs + thirtyDays ≤ now) := by
  have h30 : (0 : ℤ) < thirtyDays := by norm_num [thirtyDays]
  have hne : rs ≠ [] → latestTimestamp rs + thirtyDays ≤ now := by
    intro h
    have hemp : rs.isEmpty = false := by
      rcases rs with _ | ⟨a, as⟩
      · exact absurd rfl h
      · rfl
    unfold getLastDistributionTime at hgate
    rw [hemp] at hgate
    simp only [Bool.false_eq_true, if_false] at hgate
    omega
  have hnew : ∀ q ∈ rs, q.timestamp < r.timestamp := by
    intro q hq
    have hT := le_latestTimestamp hq
    have hrs : rs ≠ [] := by
      rintro rfl
      cases hq
    have := hne hrs
    rw [hts]
    omega
  refine ⟨?_, ?_, hne⟩
  · rw [latestTimestamp_set_fresh rs r hnew (by rw [hts]; exact hn0), hts]
  · rw [SetDistributionRecord_fresh rs r (fun q hq => ne_of_lt (hnew q hq))]
    simp

theorem mintedAmount_le {p : Params} (hp : SharesValid p) (m : ℕ) :
    mintedAmount p m ≤ m :=
  bucket_sum_le_of_valid hp m

/-- A successful distribution at a gated tick preserves the invariant. -/
theorem DistributeMonthlyRewards_inv (p : Params) (hp : SharesValid p)
    (hd : 0 < p.halvingCycleDuration) (now : ℤ) (hn0 : 0 ≤ now) (s : State)
    (hs : InvC4 p now s)
    (hfresh : ∀ i1, s.info = some i1 →
      s.bank.supply < MinimumSupplyThreshold ∨
      now - i1.cycleStartTime < p.halvingCycleDuration)
    (hgate : thirtyDays ≤ now - getLastDistributionTime s.records now)
    (vs : List Validator) (mk : Bool) :
    InvC4 p now (DistributeMonthlyRewards s p now vs mk).state := by
  by_cases hb : s.bank.supply < MinimumSupplyThreshold
  · rw [DistributeMonthlyRewards_below s p now vs mk hb]
    exact hs
  rcases DistributeMonthlyRewards_success_or s p now vs mk with
    herr | hbelow | ⟨bank3, ps, heq, hres⟩
  · rcases DistributeMonthlyRewards_err_or_frame s p now vs mk with hok | hframe
    · rw [herr] at hok
      cases hok
    · have hsup := DistributeMonthlyRewards_supply_le s p now vs mk hp
      intro i hi
      rw [hframe.1] at hi
      obtain ⟨h1, h2, h3⟩ := hs i hi
      rw [hframe.2.1]
      exact ⟨h1, le_trans hsup h2, h3⟩
  · exact absurd hbelow hb
  · have hs3 := distributeToValidators_supply
      ⟨s.bank.supply - CalculateMonthlyReward s.bank.supply
         + mintedAmount p (CalculateMonthlyReward s.bank.supply),
       s.bank.moduleBalance - CalculateMonthlyReward s.bank.supply
         + mintedAmount p (CalculateMonthlyReward s.bank.supply)⟩
      vs (mulDecTrunc (CalculateMonthlyReward s.bank.supply) p.validatorShareNum)
    rw [heq] at hs3
    dsimp only at hs3
    have hmle : CalculateMonthlyReward s.bank.supply ≤ s.bank.supply :=
      CalculateMonthlyReward_le _
    have hminted : mintedAmount p (CalculateMonthlyReward s.bank.supply)
        ≤ CalculateMonthlyReward s.bank.supply := mintedAmount_le hp _
    rcases hsi : s.info with _ | j
    · -- no prior info: the distribution lazily initialises the cycle
      rw [hsi] at hres
      simp only [Option.getD_none] at hres
      rw [hres]
      intro i hi
      dsimp only at hi
      injection hi with hi
      subst hi
      obtain ⟨hT, hne, _⟩ := records_set_fresh_latest s.records now hn0
        ⟨now, CalculateMonthlyReward s.bank.supply, 1, getCurrentMonth now now⟩
        rfl hgate
      refine ⟨le_refl now, by dsimp only; omega, Or.inr ?_⟩
      dsimp only
      refine ⟨hne, ?_, ?_, ?_⟩
      · rw [hT]
      · rw [hT]
        omega
      · rw [hT]
        simp only [sub_self, Int.toNat_zero, Nat.zero_div, Nat.zero_add, one_mul]
        exact le_refl _
    · -- prior cycle info j
      rw [hsi] at hres
      simp only [Option.getD_some] at hres
      obtain ⟨h1, h2, h3⟩ := hs j hsi
      have hfr : now - j.cycleStartTime < p.halvingCycleDuration :=
        (hfresh j hsi).resolve_left hb
      have hmM : CalculateMonthlyReward s.bank.supply
          ≤ CalculateMonthlyReward j.totalFundsForCycle :=
        CalculateMonthlyReward_mono h2
      rw [hres]
      intro i hi
      dsimp only at hi
      injection hi with hi
      subst hi
      obtain ⟨hT, hne, hold⟩ := records_set_fresh_latest s.records now hn0
        ⟨now, CalculateMonthlyReward s.bank.supply, j.currentCycle,
          getCurrentMonth now j.cycleStartTime⟩ rfl hgate
      refine ⟨h1, by dsimp only; omega, Or.inr ?_⟩
      dsimp only
      rw [hT]
      refine ⟨hne, h1, by omega, ?_⟩
      rcases h3 with h3 | ⟨hrne, hstT, hTlt, hDb⟩
      · -- nothing distributed yet in this cycle
        rw [h3, Nat.zero_add]
        calc CalculateMonthlyReward s.bank.supply
            ≤ CalculateMonthlyReward j.totalFundsForCycle := hmM
          _ ≤ ((now - j.cycleStartTime).toNat / 2592000 + 1)
                * CalculateMonthlyReward j.totalFundsForCycle :=
              Nat.le_mul_of_pos_left _ (by omega)
      · -- at least one earlier distribution this cycle
        have hstep := hold hrne
        have hkk : (latestTimestamp s.records - j.cycleStartTime).toNat / 2592000 + 1
            ≤ (now - j.cycleStartTime).toNat / 2592000 := by
          have h30 : thirtyDays = 2592000 := by norm_num [thirtyDays]
          rw [h30] at hstep
          omega
        calc j.distributedInCycle + CalculateMonthlyReward s.bank.supply
            ≤ ((latestTimestamp s.records - j.cycleStartTime).toNat / 2592000 + 1)
                * CalculateMonthlyReward j.totalFundsForCycle
              + CalculateMonthlyReward j.totalFundsForCycle :=
              Nat.add_le_add hDb hmM
          _ = ((latestTimestamp s.records - j.cycleStartTime).toNat / 2592000 + 2)
                * CalculateMonthlyReward j.totalFundsForCycle := by ring
          _ ≤ ((now - j.cycleStartTime).toNat / 2592000 + 1)
                * CalculateMonthlyReward j.totalFundsForCycle := by
              refine Nat.mul_le_mul_right _ ?_
              omega

theorem BeginBlocker_inv (p : Params) (hp : SharesValid p)
    (hd : 0 < p.halvingCycleDuration) (t : ℤ) (ht0 : 0 ≤ t) (s : State)
    (hs : InvC4 p t s) (tk : TickInput) (htk : t ≤ tk.now) :
    InvC4 p tk.now (BeginBlocker s p tk).state := by
  obtain ⟨hadv, hfresh⟩ := CheckAndAdvanceCycle_inv p hd t tk.now htk s hs
  have hbank := CheckAndAdvanceCycle_bank s p tk.now
  simp only [BeginBlocker]
  split
  case isTrue hgate =>
    dsimp only
    refine DistributeMonthlyRewards_inv p hp hd tk.now (le_trans ht0 htk) _
      hadv ?_ hgate _ _
    intro i1 hi1
    rcases hfresh i1 hi1 with h | h
    · left
      rw [hbank]
      exact h
    · right
      exact h
  case isFalse hgate => exact hadv

theorem runTicks_inv (p : Params) (hp : SharesValid p)
    (hd : 0 < p.halvingCycleDuration) :
    ∀ (ts : List TickInput) (t : ℤ) (s : State), 0 ≤ t → InvC4 p t s →
      validTimes t ts = true →
      ∃ t1, 0 ≤ t1 ∧ InvC4 p t1 (runTicks p s ts) := by
  intro ts
  induction ts with
  | nil =>
    intro t s ht hs _
    exact ⟨t, ht, hs⟩
  | cons tk ts ih =>
    intro t s ht hs hvt
    simp only [validTimes, Bool.and_eq_true, decide_eq_true_eq] at hvt
    exact ih tk.now _ (le_trans ht hvt.1)
      (BeginBlocker_inv p hp hd t ht s hs tk hvt.1) hvt.2

set_option maxRecDepth 10000 in
/-- C4 counterexample: sixty-one 30-day ticks fit inside one 5-year cycle
(days 0, 30, ..., 1800 < 1825).  Starting from an uninitialised module with
supply 6e12 ugen (chosen so every truncation is exact and the supply stays
constant), after 61 distributions distributedInCycle = 915e9 strictly
exceeds the 15% earmark of the cycle snapshot, 900e9. -/
theorem C4_counterexample :
    (runTicks DefaultParams ⟨⟨6000000000000, 1000000000000⟩, none, []⟩ cexTicks).info
      = some ⟨1, 0, 6000000000000, 915000000000⟩ ∧
    mulDecTrunc 6000000000000 reductionRateNum = 900000000000 ∧
    (900000000000 : ℕ) < 915000000000 := by decide

/-- C4 amended: from an uninitialised module state, across any
chronologically ordered tick sequence under the default parameters,
distributedInCycle only grows by distributed monthly amounts, resets to
zero when a new cycle begins, and is bounded by 61 (not 60) monthly amounts
computed from the cycle's full-supply snapshot - one month more than the
15% earmark spread over 60 months, because 61 thirty-day marks fit in the
1825-day cycle. -/
theorem C4_amended (bank0 : Bank) (ts : List TickInput)
    (hts : validTimes 0 ts = true) :
    distributedWithin61 (runTicks DefaultParams ⟨bank0, none, []⟩ ts) = true := by
  have hbase : InvC4 DefaultParams 0 ⟨bank0, none, []⟩ := by
    intro i hi
    cases hi
  obtain ⟨t1, ht1, hinv⟩ := runTicks_inv DefaultParams (by decide) (by decide)
    ts 0 ⟨bank0, none, []⟩ (le_refl 0) hbase hts
  unfold distributedWithin61
  rcases hsi : (runTicks DefaultParams ⟨bank0, none, []⟩ ts).info with _ | i
  · rfl
  · dsimp only
    rw [decide_eq_true_eq]
    obtain ⟨_, _, h3⟩ := hinv i hsi
    rcases h3 with h3 | ⟨_, hstT, hTlt, hDb⟩
    · rw [h3]
      exact Nat.zero_le _
    · have hval : DefaultParams.halvingCycleDuration = 157680000 := by
        norm_num [DefaultParams]
      rw [hval] at hTlt
      refine le_trans hDb (Nat.mul_le_mul_right _ ?_)
      omega

/-- Witness for C4 amended on a concrete one-tick run. -/
theorem C4_amended_witness :
    validTimes 0 [⟨0, [⟨true, true⟩], true⟩] = true ∧
    distributedWithin61 (runTicks DefaultParams
      ⟨⟨6000000000000, 1000000000000⟩, none, []⟩
      [⟨0, [⟨true, true⟩], true⟩]) = true :=
  ⟨by decide, C4_amended ⟨6000000000000, 1000000000000⟩ _ (by decide)⟩

end Genpro
